import Mathlib

/-!
Verification development for `hirei_tokuhyou_juni.py`, a batch converter that
reads election-result XML feeds, extracts the headline and the embedded CSV
body, normalizes full-width glyphs, classifies candidate rows, coerces vote
counts to integers, and derives full/winner/loser report record sets.

Strings are modelled as `List Char`; Python's per-character operations map to
list operations.  Fallible steps return `Option` / `Except`.
-/

/-- Characters stripped by Python's `str.strip()` with no argument (ASCII
whitespace plus the ideographic space U+3000, the whitespace actually
reachable in these feeds). -/
def isSpaceChar (c : Char) : Bool :=
  c = ' ' || c = '\t' || c = '\n' || c = '\r' ||
  c = '\x0b' || c = '\x0c' || c = '　'

/-- Python `str.strip()`: drop leading and trailing whitespace. -/
def pyStrip (s : List Char) : List Char :=
  ((s.dropWhile isSpaceChar).reverse.dropWhile isSpaceChar).reverse

/-- The `ZEN2HAN_TABLE` passed to `str.maketrans` in the source: full-width
comma, period, space and digits mapped to their half-width forms. -/
def ZEN2HAN_TABLE : List (Char × Char) :=
  [('，', ','), ('．', '.'), ('　', ' '),
   ('０', '0'), ('１', '1'), ('２', '2'), ('３', '3'), ('４', '4'),
   ('５', '5'), ('６', '6'), ('７', '7'), ('８', '8'), ('９', '9')]

/-- Per-character action of `str.translate(ZEN2HAN_TABLE)`: a character in
the table is replaced, every other character passes through unchanged. -/
def zen2hanChar (c : Char) : Char :=
  match ZEN2HAN_TABLE.lookup c with
  | some d => d
  | none => c

/-- `csv_text.translate(ZEN2HAN_TABLE)` (line 332 of the source). -/
def pyTranslate (s : List Char) : List Char :=
  s.map zen2hanChar

theorem lookup_mem {c d : Char} :
    ∀ {t : List (Char × Char)}, t.lookup c = some d → (c, d) ∈ t := by
  intro t
  induction t with
  | nil => intro h; simp [List.lookup] at h
  | cons p r ih =>
    intro h
    rcases p with ⟨a, b⟩
    by_cases hca : c = a
    · subst hca
      simp [List.lookup] at h
      simp [h]
    · have hbeq : (c == a) = false := beq_false_of_ne hca
      simp [List.lookup, hbeq] at h
      exact List.mem_cons_of_mem _ (ih h)

theorem zen2hanChar_maps_or_id (c : Char) :
    zen2hanChar c = c ∨ (c, zen2hanChar c) ∈ ZEN2HAN_TABLE := by
  unfold zen2hanChar
  cases h : ZEN2HAN_TABLE.lookup c with
  | none => simp
  | some d => simp [lookup_mem h]

theorem zen2hanChar_fixed_on_targets :
    ∀ p ∈ ZEN2HAN_TABLE, zen2hanChar p.2 = p.2 := by decide

theorem zen2hanChar_idem (c : Char) :
    zen2hanChar (zen2hanChar c) = zen2hanChar c := by
  rcases zen2hanChar_maps_or_id c with h | h
  · rw [h, h]
  · exact zen2hanChar_fixed_on_targets _ h

/-! ### Substring search (the shallow model of `re.search` on literal tags) -/

/-- First index (if any) at which `p` occurs as a contiguous substring of
`s`.  Models the leftmost-match rule of `re.search` for a literal pattern. -/
def findSub : List Char → List Char → Option Nat
  | [], p => if p.isPrefixOf [] then some 0 else none
  | a :: t, p =>
    if p.isPrefixOf (a :: t) then some 0 else (findSub t p).map (· + 1)

/-- `p` occurs in `s` starting at index `i`. -/
def occursAt (s p : List Char) (i : Nat) : Prop :=
  (s.drop i).take p.length = p

theorem isPrefixOf_iff (p : List Char) :
    ∀ s : List Char, p.isPrefixOf s = true ↔ s.take p.length = p := by
  induction p with
  | nil => intro s; simp [List.isPrefixOf]
  | cons a as ih =>
    intro s
    cases s with
    | nil => simp [List.isPrefixOf]
    | cons b bs =>
      constructor
      · intro h
        simp only [List.isPrefixOf, Bool.and_eq_true, beq_iff_eq] at h
        rcases h with ⟨rfl, h2⟩
        simp [List.take_succ_cons, (ih bs).mp h2]
      · intro h
        simp only [List.length_cons, List.take_succ_cons, List.cons.injEq] at h
        rcases h with ⟨rfl, h2⟩
        simp [List.isPrefixOf, (ih bs).mpr h2]

theorem findSub_some_occurs {p : List Char} :
    ∀ {s : List Char} {i : Nat}, findSub s p = some i → occursAt s p i := by
  intro s
  induction s with
  | nil =>
    intro i h
    unfold findSub at h
    split at h
    · next hp =>
      cases h
      exact (isPrefixOf_iff p []).mp hp
    · cases h
  | cons a t ih =>
    intro i h
    unfold findSub at h
    split at h
    · next hp =>
      cases h
      simpa [occursAt] using (isPrefixOf_iff p (a :: t)).mp hp
    · next hp =>
      rcases Option.map_eq_some'.mp h with ⟨i', hi', rfl⟩
      simpa [occursAt] using ih hi'

theorem findSub_some_first {p : List Char} :
    ∀ {s : List Char} {i : Nat}, findSub s p = some i →
      ∀ j, j < i → ¬ occursAt s p j := by
  intro s
  induction s with
  | nil =>
    intro i h j hj
    unfold findSub at h
    split at h
    · cases h; omega
    · cases h
  | cons a t ih =>
    intro i h j hj
    unfold findSub at h
    split at h
    · cases h; omega
    · next hp =>
      rcases Option.map_eq_some'.mp h with ⟨i', hi', rfl⟩
      cases j with
      | zero =>
        intro hocc
        have : p.isPrefixOf (a :: t) = true := by
          apply (isPrefixOf_iff p (a :: t)).mpr
          simpa [occursAt] using hocc
        simp [this] at hp
      | succ j' =>
        intro hocc
        exact ih hi' j' (by omega) (by simpa [occursAt] using hocc)

theorem findSub_none {p : List Char} :
    ∀ {s : List Char}, findSub s p = none → ∀ j, ¬ occursAt s p j := by
  intro s
  induction s with
  | nil =>
    intro h j
    unfold findSub at h
    split at h
    · cases h
    · next hp =>
      intro hocc
      have : p.isPrefixOf ([] : List Char) = true := by
        apply (isPrefixOf_iff p []).mpr
        simpa [occursAt] using hocc
      simp [this] at hp
  | cons a t ih =>
    intro h j
    unfold findSub at h
    split at h
    · cases h
    · next hp =>
      have ht : findSub t p = none := by
        cases hft : findSub t p with
        | none => rfl
        | some k => simp [hft] at h
      cases j with
      | zero =>
        intro hocc
        have : p.isPrefixOf (a :: t) = true := by
          apply (isPrefixOf_iff p (a :: t)).mpr
          simpa [occursAt] using hocc
        simp [this] at hp
      | succ j' =>
        intro hocc
        exact ih ht j' (by simpa [occursAt] using hocc)

/-- Model of `re.search(r'<T>(.*?)</T>', content, re.DOTALL)` for a literal
tag pair: the match starts at the leftmost occurrence of the opening tag and
the group runs (lazily) to the first closing tag after it.  `re.DOTALL` means
no character — newline included — terminates the group, which the model
reflects by treating all characters alike. -/
def searchTag (openT closeT s : List Char) : Option (List Char) :=
  match findSub s openT with
  | none => none
  | some i =>
    match findSub (s.drop (i + openT.length)) closeT with
    | none => none
    | some j => some ((s.drop (i + openT.length)).take j)

theorem searchTag_decomp {o c s m : List Char} (h : searchTag o c s = some m) :
    ∃ p q, s = p ++ o ++ m ++ c ++ q := by
  unfold searchTag at h
  cases hfo : findSub s o with
  | none => simp [hfo] at h
  | some i =>
    simp only [hfo] at h
    cases hfc : findSub (s.drop (i + o.length)) c with
    | none => simp [hfc] at h
    | some j =>
      simp only [hfc] at h
      injection h with h
      subst h
      have ho : (s.drop i).take o.length = o := findSub_some_occurs hfo
      have hc : ((s.drop (i + o.length)).drop j).take c.length = c :=
        findSub_some_occurs hfc
      refine ⟨s.take i, ((s.drop (i + o.length)).drop j).drop c.length, ?_⟩
      have e2 : s.drop i = o ++ s.drop (i + o.length) := by
        conv_lhs => rw [← List.take_append_drop o.length (s.drop i)]
        rw [ho, List.drop_drop]
      have e4 : (s.drop (i + o.length)).drop j =
          c ++ ((s.drop (i + o.length)).drop j).drop c.length := by
        conv_lhs =>
          rw [← List.take_append_drop c.length ((s.drop (i + o.length)).drop j)]
        rw [hc]
      calc s = s.take i ++ s.drop i := (List.take_append_drop i s).symm
        _ = s.take i ++ (o ++ s.drop (i + o.length)) := by rw [e2]
        _ = s.take i ++ (o ++ ((s.drop (i + o.length)).take j ++
              (s.drop (i + o.length)).drop j)) := by
              rw [List.take_append_drop j (s.drop (i + o.length))]
        _ = s.take i ++ (o ++ ((s.drop (i + o.length)).take j ++
              (c ++ ((s.drop (i + o.length)).drop j).drop c.length))) := by
              rw [← e4]
        _ = s.take i ++ o ++ (s.drop (i + o.length)).take j ++ c ++
              ((s.drop (i + o.length)).drop j).drop c.length := by
              simp [List.append_assoc]

/-! ### Tag extractor (`extract_content_from_xml`, lines 87-131) -/

/-- Headline: first match, in priority order, of `InHeadLine`, `HeadLine`,
`DeliveryHeadline1` (lines 100-105). -/
def extractHeadline (content : List Char) : Option (List Char) :=
  match searchTag "<InHeadLine>".data "</InHeadLine>".data content with
  | some m => some m
  | none =>
    match searchTag "<HeadLine>".data "</HeadLine>".data content with
    | some m => some m
    | none =>
      searchTag "<DeliveryHeadline1>".data "</DeliveryHeadline1>".data content

/-- Body: first match, in priority order, of `CsvData`, `Sentence`
(lines 108-111). -/
def extractBody (content : List Char) : Option (List Char) :=
  match searchTag "<CsvData>".data "</CsvData>".data content with
  | some m => some m
  | none => searchTag "<Sentence>".data "</Sentence>".data content

/-- `re.sub(r'</?InData>.*', '', csv_data_text, flags=re.DOTALL)` (line 121):
everything from the first occurrence of `<InData>` or `</InData>` onward is
removed; with no marker the text is kept whole. -/
def stripInData (b : List Char) : List Char :=
  match findSub b "<InData>".data, findSub b "</InData>".data with
  | none, none => b
  | some i, none => b.take i
  | none, some j => b.take j
  | some i, some j => b.take (min i j)

/-- One attempt at a decoded text (lines 100-123): succeed only when a
headline pattern and a body pattern both match; strip the group contents and
clean the body tail. -/
def extractFromContent (content : List Char) : Option (List Char × List Char) :=
  match extractHeadline content, extractBody content with
  | some h, some b => some (pyStrip h, stripInData (pyStrip b))
  | _, _ => none

/-- `encodings_to_try` (line 87). -/
def encodings_to_try : List String := ["utf-8", "sjis", "cp932", "utf-16"]

/-- The encoding loop (lines 90-128): first candidate whose decoded text
yields a full extraction wins; later candidates are not consulted. -/
def tryEncodings (decode : String → List Char) :
    List String → Option (List Char × List Char)
  | [] => none
  | e :: es =>
    match extractFromContent (decode e) with
    | some r => some r
    | none => tryEncodings decode es

/-- `extract_content_from_xml`, with the file's bytes abstracted as the
function `decode` giving the text read under each candidate encoding
(`errors='ignore'` makes every decode attempt total). -/
def extract_content_from_xml (decode : String → List Char) :
    Option (List Char × List Char) :=
  tryEncodings decode encodings_to_try

/-- The caller-side guard (lines 326-329): `if not headline or not csv_text`
skips the document, so an empty extracted field never reaches the pipeline. -/
def pipelineExtract (decode : String → List Char) :
    Option (List Char × List Char) :=
  match extract_content_from_xml decode with
  | none => none
  | some (h, b) => if h = [] ∨ b = [] then none else some (h, b)

/-! ### Row classifier (`process_xml_file`, lines 334-371) -/

/-- A parsed CSV row: ordered fields, no fixed arity. -/
abbrev Row := List (List Char)

/-- The sentinel first-column label of the header row. -/
def sentinelRank : List Char := "順位".data

/-- The name column resolved from the header by `.index` (line 354). -/
def nameColLabel : List Char := "政党名／候補者名".data

/-- `if row and row[0].strip() == '順位'` (line 344). -/
def isHeaderRowB : Row → Bool
  | [] => false
  | f :: _ => decide (pyStrip f = sentinelRank)

/-- The header scan (lines 340-347): the first matching row wins, its fields
are trimmed, and its index is kept for slicing off the data rows. -/
def findHeaderAux : List Row → Option (Row × Nat)
  | [] => none
  | r :: rs =>
    if isHeaderRowB r then some (r.map pyStrip, 0)
    else (findHeaderAux rs).map (fun p => (p.1, p.2 + 1))

def findHeaderRow (rows : List Row) : Option (Row × Nat) :=
  findHeaderAux rows

/-- `header_row.index('政党名／候補者名')` (line 354); Python raises
`ValueError` when the label is absent, modelled as `none`. -/
def listIndex : List (List Char) → List Char → Option Nat
  | [], _ => none
  | a :: as, x => if a = x then some 0 else (listIndex as x).map (· + 1)

/-- `re.match(r'^\s*\d{4,}', ...) is not None` (line 364): after optional
whitespace, at least four decimal digits must lead.  (The classifier runs on
ZEN2HAN-normalized text, whose decimal digits are half-width, so `\d` is
modelled by ASCII digits.) -/
def reMatchCode (s : List Char) : Bool :=
  let t := s.dropWhile isSpaceChar
  decide ((t.take 4).length = 4) && (t.take 4).all Char.isDigit

/-- The per-document failure kinds of lines 327-371 and the `except` at
line 436, keeping the two distinct `IndexError` sites apart. -/
inductive PErr where
  | headerNotFound
  | nameColNotFound
  | indexErrorName
  | indexErrorPos1
  | noCandidateData
  deriving DecidableEq, Repr

/-- One iteration of the candidate loop (lines 357-367).  Python evaluates
`row[name_col_idx]` (line 362) and then `row[1]` (line 364) while building
the three booleans, before the `if` at line 366 consults them, so a
too-short row raises `IndexError` instead of being skipped. -/
def classifyStep (nameIdx : Nat) (row : Row) : Except PErr (Option Row) :=
  match row[nameIdx]? with
  | none => .error .indexErrorName
  | some nameField =>
    match row[1]? with
    | none => .error .indexErrorPos1
    | some f1 =>
      let is_valid_row : Bool := decide (nameIdx < row.length)
      let has_name : Bool := decide (pyStrip nameField ≠ [])
      let is_candidate_code : Bool := reMatchCode (pyStrip f1)
      if is_valid_row && has_name && is_candidate_code then .ok (some row)
      else .ok none

/-- The candidate loop over `all_rows[header_row_index + 1:]`: kept rows in
source order; a raise at any row aborts the whole loop. -/
def classifyRows (nameIdx : Nat) : List Row → Except PErr (List Row)
  | [] => .ok []
  | r :: rs =>
    match classifyStep nameIdx r with
    | .error e => .error e
    | .ok o =>
      match classifyRows nameIdx rs with
      | .error e => .error e
      | .ok rest =>
        match o with
        | some row => .ok (row :: rest)
        | none => .ok rest

/-- Steps 4-5 of `process_xml_file` (lines 340-371): find the header, resolve
the name column, filter candidate rows.  Python exceptions land in the
`except` at line 436 and skip the document. -/
def processRows (rows : List Row) : Except PErr (Row × List Row) :=
  match findHeaderRow rows with
  | none => .error .headerNotFound
  | some (header, i) =>
    match listIndex header nameColLabel with
    | none => .error .nameColNotFound
    | some nameIdx =>
      match classifyRows nameIdx (rows.drop (i + 1)) with
      | .error e => .error e
      | .ok cands =>
        if cands = [] then .error .noCandidateData else .ok (header, cands)

/-! ### Column typing (lines 376-393) -/

/-- A non-`NaN` value produced by `pd.to_numeric`: a finite float64 or a
signed infinity.  A finite value is carried as the integer `astype(int)`
will truncate it to, since that truncation is the only way this pipeline
observes a finite cell.  (`NaN` itself is the `none` of the surrounding
`Option`.) -/
inductive PdNum where
  | finite : Int → PdNum
  | posInf : PdNum
  | negInf : PdNum
  deriving DecidableEq, Repr

/-- Value of a digit run. -/
def digitsToNat (ds : List Char) : Nat :=
  ds.foldl (fun n c => 10 * n + (c.toNat - '0'.toNat)) 0

/-- Truncation toward zero of `mant * 10 ^ (expv - scale)` (the magnitude of
a decimal literal with `scale` fractional digits and exponent `expv`). -/
def truncScaled (mant scale : Nat) (expv : Int) : Nat :=
  if (scale : Int) ≤ expv then mant * 10 ^ ((expv - (scale : Int)).toNat)
  else mant / 10 ^ (((scale : Int) - expv).toNat)

/-- The numeric-literal grammar of `pd.to_numeric` on an already-stripped
cell: optional sign, then case-insensitive `inf`/`infinity` (an infinite
float), case-insensitive `nan` (a `NaN`, indistinguishable downstream from
an unparseable cell), or decimal digits with optional fraction and optional
`e`/`E` exponent.  No thousands-separator handling exists: a comma anywhere
leaves the value unparseable.  (float64 rounding of mantissas beyond 17
significant digits is not modelled; the feeds' vote counts are far below
that.) -/
def parsePdNum (t : List Char) : Option PdNum :=
  let neg : Bool := match t with | '-' :: _ => true | _ => false
  let t1 : List Char :=
    match t with
    | '-' :: r => r
    | '+' :: r => r
    | _ => t
  let low := t1.map Char.toLower
  if low = "inf".data ∨ low = "infinity".data then
    some (if neg then .negInf else .posInf)
  else if low = "nan".data then none
  else
    let intd := t1.takeWhile Char.isDigit
    let rest := t1.dropWhile Char.isDigit
    let fr2 : List Char × List Char :=
      match rest with
      | '.' :: fr => (fr.takeWhile Char.isDigit, fr.dropWhile Char.isDigit)
      | _ => ([], rest)
    let frd := fr2.1
    let rest2 := fr2.2
    if intd = [] ∧ frd = [] then none
    else
      let mant : Nat := digitsToNat (intd ++ frd)
      let scale : Nat := frd.length
      let sgn : Int := if neg then -1 else 1
      match rest2 with
      | [] => some (.finite (sgn * truncScaled mant scale 0))
      | e :: ex =>
        if e = 'e' ∨ e = 'E' then
          let eneg : Bool := match ex with | '-' :: _ => true | _ => false
          let ex1 : List Char :=
            match ex with
            | '-' :: r => r
            | '+' :: r => r
            | _ => ex
          if ex1 ≠ [] ∧ ex1.all Char.isDigit then
            let expv : Int :=
              (if eneg then -1 else 1) * (digitsToNat ex1 : Int)
            some (.finite (sgn * truncScaled mant scale expv))
          else none
        else none

/-- `pd.to_numeric(value, errors='coerce')` (line 389): whitespace around the
literal is tolerated, anything unparseable becomes `NaN` (`none`). -/
def toNumericCoerce (s : List Char) : Option PdNum :=
  parsePdNum (pyStrip s)

/-- `.fillna(0)` (line 391): `NaN` cells become 0; infinities are not `NaN`
and pass through untouched. -/
def fillna0 (x : Option PdNum) : PdNum :=
  x.getD (.finite 0)

/-- The message of the `ValueError` that `astype(int)` raises on a
non-finite value. -/
def astypeErrMsg : List Char :=
  "ValueError: Cannot convert non-finite values (NA or inf) to integer".data

/-- `.astype(int)` on one element (line 393): truncation toward zero for a
finite float; a non-finite value raises `ValueError`, which the `except` at
line 436 turns into a document abort. -/
def astypeInt : PdNum → Except (List Char) Int
  | .finite n => .ok n
  | .posInf => .error astypeErrMsg
  | .negInf => .error astypeErrMsg

/-- One cell through lines 389-393: coerce, `fillna(0)`, `astype(int)`. -/
def coerceCell (s : List Char) : Except (List Char) Int :=
  astypeInt (fillna0 (toNumericCoerce s))

/-- `astype(int)` over a whole column: any non-finite element makes the
conversion raise. -/
def astypeIntList : List PdNum → Except (List Char) (List Int)
  | [] => .ok []
  | x :: xs =>
    match astypeInt x, astypeIntList xs with
    | .error e, _ => .error e
    | .ok _, .error e => .error e
    | .ok n, .ok ns => .ok (n :: ns)

/-- The column pipeline of lines 389-393 on a whole column of cells. -/
def coerceColumn (vals : List (List Char)) : Except (List Char) (List Int) :=
  astypeIntList (vals.map (fun v => fillna0 (toNumericCoerce v)))

/-- `all_cols_except_text` (line 379). -/
def all_cols_except_text : List (List Char) :=
  ["順位".data, "政党コード／人物番号".data, "政党名／候補者名".data,
   "当落マーク".data, "党派コード".data, "党派名".data, "身分".data,
   "候補者氏名".data, "特定枠".data]

/-- A header column is coerced iff it is `'順位'` or absent from the fixed
text-column list (lines 378-385). -/
def isNumericCol (col : List Char) : Bool :=
  decide (col = sentinelRank) || decide (col ∉ all_cols_except_text)

/-! ### Report segmenter (lines 407-434) -/

/-- Cell of `row` in the column at `idx`; a missing cell (`NaN` padding) is
read back as `''` through the `.fillna('')` inside the filters. -/
def cellAt (row : Row) (idx : Nat) : List Char :=
  row.getD idx []

/-- Winner filter (line 410): status mark non-blank after strip. -/
def isWinner (markIdx : Nat) (row : Row) : Bool :=
  decide (pyStrip (cellAt row markIdx) ≠ [])

/-- Loser filter (lines 422-424): status mark blank and party code
non-blank, both after strip. -/
def isLoser (markIdx partyIdx : Nat) (row : Row) : Bool :=
  decide (pyStrip (cellAt row markIdx) = []) &&
  decide (pyStrip (cellAt row partyIdx) ≠ [])

/-- `df_tou` row selection (line 410). -/
def winnersOf (markIdx : Nat) (rows : List Row) : List Row :=
  rows.filter (isWinner markIdx)

/-- `df_raku_filtered` row selection (lines 422-424). -/
def losersOf (markIdx partyIdx : Nat) (rows : List Row) : List Row :=
  rows.filter (isLoser markIdx partyIdx)

/-! ### Excel writer (`write_df_to_excel_with_formatting`, lines 196-310) -/

/-- Just enough of Python's value universe to type the expression at
line 235. -/
inductive PyVal where
  | str : List Char → PyVal
  | int : Int → PyVal
  | list : List PyVal → PyVal

/-- The message of the `TypeError` Python raises at line 235. -/
def typeErrorMsg : List Char :=
  "TypeError: can only concatenate list (not str) to list".data

/-- Python `+` on these values: concatenation within one sequence type,
addition on numbers, `TypeError` across kinds (`list + str` included). -/
def pyAdd : PyVal → PyVal → Except (List Char) PyVal
  | .str a, .str b => .ok (.str (a ++ b))
  | .int a, .int b => .ok (.int (a + b))
  | .list a, .list b => .ok (.list (a ++ b))
  | _, _ => .error typeErrorMsg

/-- One worksheet cell write. -/
structure XlsxCell where
  row : Nat
  col : Nat
  text : List Char

/-- Observable outcome of one call to the writer: the cells it wrote, whether
the success message of line 307 ran, and the error the `except` at lines
309-310 caught (if any). -/
structure WriteOutcome where
  cellsWritten : List XlsxCell
  successReported : Bool
  caughtError : Option (List Char)

/-- `cols_to_hide` (lines 225-227). -/
def cols_to_hide (combine_name_cols : Bool) : List (List Char) :=
  if combine_name_cols then ["党派名".data, "身分".data] else []

/-- `write_df_to_excel_with_formatting`.  The `try` body computes the display
columns (lines 229-233) and then evaluates `print(display_cols + 'aaa')`
(line 235); the header writes (238-239), data-row writes (243-288) and the
success print (307) only run if that expression yields a value, which the
`.ok` branch models.  The `except` at 309-310 reduces the raised exception
to a log line and a normal return. -/
def write_df_to_excel_with_formatting (dfCols : List (List Char))
    (dfRows : List Row) (excelPath : List Char) (combine_name_cols : Bool) :
    WriteOutcome :=
  let hidden := cols_to_hide combine_name_cols
  let display_cols := dfCols.filter (fun c => decide (c ∉ hidden))
  match pyAdd (.list (display_cols.map .str)) (.str "aaa".data) with
  | .error e =>
    { cellsWritten := [], successReported := false, caughtError := some e }
  | .ok _ =>
    let headerCells :=
      ((List.range display_cols.length).zip display_cols).map
        (fun p => XlsxCell.mk 0 p.1 p.2)
    let dataCells :=
      (((List.range dfRows.length).zip dfRows).map (fun rp =>
        ((List.range display_cols.length).zip display_cols).map (fun cp =>
          XlsxCell.mk (rp.1 + 1) cp.1
            (match listIndex dfCols cp.2 with
             | some k => cellAt rp.2 k
             | none => [])))).flatten
    { cellsWritten := headerCells ++ dataCells
      successReported := true
      caughtError := none }

/-! ### Helper lemmas -/

theorem findHeaderAux_some :
    ∀ {rows : List Row} {h : Row} {i : Nat},
      findHeaderAux rows = some (h, i) →
      (∃ r, rows[i]? = some r ∧ isHeaderRowB r = true ∧ h = r.map pyStrip) ∧
      ∀ j, j < i → ∀ r, rows[j]? = some r → isHeaderRowB r = false := by
  intro rows
  induction rows with
  | nil => intro h i hf; cases hf
  | cons r rs ih =>
    intro h i hf
    unfold findHeaderAux at hf
    by_cases hr : isHeaderRowB r = true
    · rw [if_pos hr] at hf
      injection hf with hf
      injection hf with hf1 hf2
      subst hf1
      subst hf2
      exact ⟨⟨r, by simp, hr, rfl⟩, by omega⟩
    · rw [if_neg hr] at hf
      rcases Option.map_eq_some'.mp hf with ⟨⟨h', i'⟩, hf', heq⟩
      injection heq with heq1 heq2
      subst heq1
      subst heq2
      rcases ih hf' with ⟨⟨r', hg, hhr, hmap⟩, hfirst⟩
      refine ⟨⟨r', by simpa using hg, hhr, hmap⟩, ?_⟩
      intro j hj r2 hr2
      cases j with
      | zero =>
        simp only [List.getElem?_cons_zero, Option.some.injEq] at hr2
        subst hr2
        exact Bool.eq_false_iff.mpr hr
      | succ j' =>
        exact hfirst j' (by omega) r2 (by simpa using hr2)

theorem findHeaderAux_none :
    ∀ {rows : List Row}, (∀ r ∈ rows, isHeaderRowB r = false) →
      findHeaderAux rows = none := by
  intro rows
  induction rows with
  | nil => intro _; rfl
  | cons r rs ih =>
    intro hall
    unfold findHeaderAux
    rw [if_neg, ih]
    · rfl
    · intro r2 hr2
      exact hall r2 (List.mem_cons_of_mem _ hr2)
    · simp [hall r (List.mem_cons_self r rs)]

theorem findHeaderRow_head_sentinel {rows : List Row} {h : Row} {i : Nat}
    (hf : findHeaderRow rows = some (h, i)) :
    ∃ t, h = sentinelRank :: t := by
  rcases (findHeaderAux_some hf).1 with ⟨r, _, hhr, hmap⟩
  cases r with
  | nil => simp [isHeaderRowB] at hhr
  | cons f fs =>
    simp only [isHeaderRowB, decide_eq_true_eq] at hhr
    exact ⟨fs.map pyStrip, by simp [hmap, hhr]⟩

theorem listIndex_cons_ne {a x : List Char} {as : List (List Char)} {k : Nat}
    (hne : a ≠ x) (h : listIndex (a :: as) x = some k) : 1 ≤ k := by
  unfold listIndex at h
  rw [if_neg hne] at h
  rcases Option.map_eq_some'.mp h with ⟨k', _, rfl⟩
  omega

theorem classifyStep_no_pos1 {nameIdx : Nat} (h1 : 1 ≤ nameIdx) (row : Row) :
    classifyStep nameIdx row ≠ Except.error PErr.indexErrorPos1 := by
  cases hg : row[nameIdx]? with
  | none => simp [classifyStep, hg]
  | some v =>
    cases hg1 : row[1]? with
    | none =>
      have hlt : nameIdx < row.length := by
        rcases List.getElem?_eq_some_iff.mp hg with ⟨hl, _⟩
        exact hl
      have hge : row.length ≤ 1 := List.getElem?_eq_none_iff.mp hg1
      omega
    | some f1 =>
      simp only [classifyStep, hg, hg1]
      split <;> simp

theorem classifyRows_no_pos1 {nameIdx : Nat} (h1 : 1 ≤ nameIdx) :
    ∀ rows : List Row,
      classifyRows nameIdx rows ≠ Except.error PErr.indexErrorPos1 := by
  intro rows
  induction rows with
  | nil => simp [classifyRows]
  | cons r rs ih =>
    unfold classifyRows
    cases hs : classifyStep nameIdx r with
    | error e =>
      have he : e ≠ PErr.indexErrorPos1 := by
        intro hcontra
        exact classifyStep_no_pos1 h1 r (hcontra ▸ hs)
      simpa using he
    | ok o =>
      cases hr : classifyRows nameIdx rs with
      | error e =>
        have he : e ≠ PErr.indexErrorPos1 := by
          intro hcontra
          exact ih (hcontra ▸ hr)
        simpa using he
      | ok rest =>
        cases o <;> simp

theorem tryEncodings_some {decode : String → List Char} :
    ∀ {es : List String} {r : List Char × List Char},
      tryEncodings decode es = some r →
      ∃ (k : Nat) (ek : String), es[k]? = some ek ∧
        extractFromContent (decode ek) = some r ∧
        ∀ (j : Nat) (ej : String), j < k → es[j]? = some ej →
          extractFromContent (decode ej) = none := by
  intro es
  induction es with
  | nil => intro r h; cases h
  | cons e es ih =>
    intro r h
    unfold tryEncodings at h
    cases hx : extractFromContent (decode e) with
    | some r' =>
      rw [hx] at h
      injection h with h
      subst h
      exact ⟨0, e, by simp, hx, by omega⟩
    | none =>
      rw [hx] at h
      rcases ih h with ⟨k, ek, hk, hek, hfirst⟩
      refine ⟨k + 1, ek, by simpa using hk, hek, ?_⟩
      intro j ej hj hje
      cases j with
      | zero =>
        simp only [List.getElem?_cons_zero, Option.some.injEq] at hje
        subst hje
        exact hx
      | succ j' =>
        exact hfirst j' ej (by omega) (by simpa using hje)

theorem tryEncodings_none {decode : String → List Char} :
    ∀ {es : List String},
      (∀ e ∈ es, extractFromContent (decode e) = none) →
      tryEncodings decode es = none := by
  intro es
  induction es with
  | nil => intro _; rfl
  | cons e es ih =>
    intro hall
    unfold tryEncodings
    rw [hall e (List.mem_cons_self e es)]
    exact ih (fun e2 he2 => hall e2 (List.mem_cons_of_mem _ he2))

theorem extractFromContent_both {content : List Char}
    {r : List Char × List Char} (h : extractFromContent content = some r) :
    extractHeadline content ≠ none ∧ extractBody content ≠ none := by
  unfold extractFromContent at h
  cases hh : extractHeadline content with
  | none => rw [hh] at h; cases hb : extractBody content <;> simp [hb] at h
  | some mh =>
    cases hb : extractBody content with
    | none => rw [hh, hb] at h; simp at h
    | some mb => simp [hh, hb]

/-- Either InData marker occurs at `i` in `b`. -/
def occursInData (b : List Char) (i : Nat) : Prop :=
  occursAt b "<InData>".data i ∨ occursAt b "</InData>".data i

theorem stripInData_no_marker {b : List Char}
    (h : ∀ j, ¬ occursInData b j) : stripInData b = b := by
  cases ho : findSub b "<InData>".data with
  | some i => exact absurd (Or.inl (findSub_some_occurs ho)) (h i)
  | none =>
    cases hc : findSub b "</InData>".data with
    | some j => exact absurd (Or.inr (findSub_some_occurs hc)) (h j)
    | none => simp [stripInData, ho, hc]

theorem stripInData_first_marker {b : List Char} {n : Nat}
    (hn : occursInData b n) :
    ∃ i, stripInData b = b.take i ∧ occursInData b i ∧
      ∀ j, j < i → ¬ occursInData b j := by
  cases ho : findSub b "<InData>".data with
  | none =>
    cases hc : findSub b "</InData>".data with
    | none =>
      exfalso
      rcases hn with h | h
      · exact findSub_none ho n h
      · exact findSub_none hc n h
    | some j =>
      refine ⟨j, by simp [stripInData, ho, hc],
              Or.inr (findSub_some_occurs hc), ?_⟩
      intro j' hj' hocc
      rcases hocc with h | h
      · exact findSub_none ho j' h
      · exact findSub_some_first hc j' hj' h
  | some i =>
    cases hc : findSub b "</InData>".data with
    | none =>
      refine ⟨i, by simp [stripInData, ho, hc],
              Or.inl (findSub_some_occurs ho), ?_⟩
      intro j' hj' hocc
      rcases hocc with h | h
      · exact findSub_some_first ho j' hj' h
      · exact findSub_none hc j' h
    | some j =>
      refine ⟨min i j, by simp [stripInData, ho, hc], ?_, ?_⟩
      · rcases Nat.le_total i j with hij | hij
        · rw [Nat.min_eq_left hij]
          exact Or.inl (findSub_some_occurs ho)
        · rw [Nat.min_eq_right hij]
          exact Or.inr (findSub_some_occurs hc)
      · intro j' hj' hocc
        rcases hocc with h | h
        · exact findSub_some_first ho j'
            (Nat.lt_of_lt_of_le hj' (Nat.min_le_left i j)) h
        · exact findSub_some_first hc j'
            (Nat.lt_of_lt_of_le hj' (Nat.min_le_right i j)) h

/-! ### Claims -/

/-- C8: glyph normalization through `ZEN2HAN_TABLE` is a pure total function
on strings and idempotent — translating twice equals translating once; every
character either maps through the fixed table or passes through unchanged,
none is dropped, so the output length equals the input length. -/
theorem C8_zen2han_idempotent_total (s : List Char) :
    pyTranslate (pyTranslate s) = pyTranslate s ∧
    (pyTranslate s).length = s.length ∧
    ∀ c ∈ s, zen2hanChar c = c ∨ (c, zen2hanChar c) ∈ ZEN2HAN_TABLE := by
  refine ⟨?_, ?_, ?_⟩
  · unfold pyTranslate
    rw [List.map_map]
    exact List.map_congr_left (fun c _ => zen2hanChar_idem c)
  · simp [pyTranslate]
  · intro c _
    exact zen2hanChar_maps_or_id c

/-- C8 witness: the properties evaluated on a concrete full-width string. -/
theorem C8_witness :
    pyTranslate (pyTranslate "１，２３４円".data) =
      pyTranslate "１，２３４円".data ∧
    (zen2hanChar '１' = '１' ∨ ('１', zen2hanChar '１') ∈ ZEN2HAN_TABLE) :=
  ⟨(C8_zen2han_idempotent_total "１，２３４円".data).1,
   (C8_zen2han_idempotent_total "１，２３４円".data).2.2 '１' (by decide)⟩

/-- C1: for every DataFrame, output path and column-merge flag, the writer
evaluates `display_cols + 'aaa'` (line 235), whose list-plus-string
concatenation raises a `TypeError` caught by the function's own `except`
(lines 309-310) before any header or data cell write (lines 238-288); the
success report of line 307 is unreachable, so no cell is ever written and no
Excel report is ever produced. -/
theorem C1_writer_always_fails (dfCols : List (List Char)) (dfRows : List Row)
    (excelPath : List Char) (combine : Bool) :
    (write_df_to_excel_with_formatting dfCols dfRows excelPath
        combine).cellsWritten = [] ∧
    (write_df_to_excel_with_formatting dfCols dfRows excelPath
        combine).successReported = false ∧
    (write_df_to_excel_with_formatting dfCols dfRows excelPath
        combine).caughtError = some typeErrorMsg :=
  ⟨rfl, rfl, rfl⟩

/-- C2 counterexample: the claim promises that the cell `"1,234"` is
coerced to `1234` and that coercion never raises; on the code,
`pd.to_numeric(errors='coerce')` has no thousands-separator stripping, so
`"1,234"` coerces to `0`, and a cell parsed to infinity makes `astype(int)`
raise, aborting the document. -/
theorem C2_counterexample :
    coerceCell "1,234".data = Except.ok 0 ∧
    coerceCell "1,234".data ≠ Except.ok 1234 ∧
    coerceColumn ["inf".data] = Except.error astypeErrMsg := by
  refine ⟨rfl, ?_, rfl⟩
  intro h
  injection h with h
  exact absurd h (by decide)

/-- C2 (amended): for every numeric column cell, column typing parses the
value with the `pd.to_numeric` grammar — optional sign, decimal digits with
optional fraction and optional exponent, `inf`/`infinity` — with no
thousands-separator stripping, so a comma-grouped value such as `"1,234"` is
unparseable; unparseable or blank values become zero, parsed finite values
are truncated toward zero, and the only raising path is a cell parsed to
infinity, on which `astype(int)` raises and the document is aborted. -/
theorem C2_amended_coercion (vals : List (List Char)) :
    ((∀ v ∈ vals, ∀ e, coerceCell v ≠ Except.error e) →
      ∃ l, coerceColumn vals = Except.ok l) ∧
    (∀ v, v ∈ vals → (∃ e, coerceCell v = Except.error e) →
      ∃ e, coerceColumn vals = Except.error e) ∧
    (∀ v, pyStrip v = [] → coerceCell v = Except.ok 0) ∧
    (∀ v, toNumericCoerce v = none → coerceCell v = Except.ok 0) ∧
    (∀ v n, toNumericCoerce v = some (PdNum.finite n) →
      coerceCell v = Except.ok n) ∧
    (∀ v e, coerceCell v = Except.error e →
      toNumericCoerce v = some PdNum.posInf ∨
      toNumericCoerce v = some PdNum.negInf) ∧
    coerceCell "1,234".data = Except.ok 0 ∧
    coerceCell "".data = Except.ok 0 ∧
    coerceCell "garbage".data = Except.ok 0 ∧
    coerceCell " 1234 ".data = Except.ok 1234 ∧
    coerceCell "12.9".data = Except.ok 12 ∧
    coerceCell "-12.9".data = Except.ok (-12) ∧
    coerceCell "1e3".data = Except.ok 1000 ∧
    coerceCell "1.5e-1".data = Except.ok 0 ∧
    coerceCell "-Infinity".data = Except.error astypeErrMsg := by
  refine ⟨?_, ?_, ?_, ?_, ?_, ?_,
          rfl, rfl, rfl, rfl, rfl, rfl, rfl, rfl, rfl⟩
  · intro hok
    induction vals with
    | nil => exact ⟨[], rfl⟩
    | cons v vs ih =>
      have hv := hok v (List.mem_cons_self v vs)
      rcases ihl : coerceColumn vs with e | l
      · exact absurd ihl
          (by
            rcases ih (fun w hw e2 => hok w (List.mem_cons_of_mem _ hw) e2)
              with ⟨l2, hl2⟩
            simp [hl2])
      · cases hc : astypeInt (fillna0 (toNumericCoerce v)) with
        | error e => exact absurd hc (hv e)
        | ok n =>
          refine ⟨n :: l, ?_⟩
          simp only [coerceColumn, List.map_cons] at ihl ⊢
          unfold astypeIntList
          rw [hc, ihl]
  · intro v hv he
    induction vals with
    | nil => cases hv
    | cons w ws ih =>
      rcases he with ⟨e, he⟩
      simp only [coerceColumn, List.map_cons]
      unfold astypeIntList
      rcases List.mem_cons.mp hv with rfl | hmem
      · have he2 : astypeInt (fillna0 (toNumericCoerce v)) = Except.error e := he
        rw [he2]
        exact ⟨e, rfl⟩
      · cases hw : astypeInt (fillna0 (toNumericCoerce w)) with
        | error e2 => exact ⟨e2, rfl⟩
        | ok n =>
          rcases ih hmem with ⟨e3, he3⟩
          simp only [coerceColumn] at he3
          rw [he3]
          exact ⟨e3, rfl⟩
  · intro v hv
    unfold coerceCell toNumericCoerce
    rw [hv]
    rfl
  · intro v hv
    unfold coerceCell
    rw [hv]
    rfl
  · intro v n hv
    unfold coerceCell
    rw [hv]
    rfl
  · intro v e hv
    unfold coerceCell at hv
    cases hn : toNumericCoerce v with
    | none => rw [hn] at hv; cases hv
    | some x =>
      cases x with
      | finite n => rw [hn] at hv; cases hv
      | posInf => exact Or.inl rfl
      | negInf => exact Or.inr rfl

/-- C2 witness: a whitespace-only cell coerces to zero, and a column of two
parseable cells converts without raising. -/
theorem C2_witness :
    coerceCell "  ".data = Except.ok 0 ∧
    ∃ l, coerceColumn ["1234".data, "x".data] = Except.ok l :=
  ⟨(C2_amended_coercion []).2.2.1 "  ".data rfl,
   (C2_amended_coercion ["1234".data, "x".data]).1
     (by intro v hv; fin_cases hv <;> intro e h <;> exact Except.noConfusion h)⟩

/-- The failing document for C3: a well-formed header, then a one-field row
(fewer fields than the name-column index), then a fully valid candidate
row. -/
def c3HeaderRow : Row := ["順位".data, "番号".data, "政党名／候補者名".data]

/-- The short row: one field only. -/
def c3ShortRow : Row := ["1".data]

/-- A row satisfying all three classification conditions of the claim. -/
def c3GoodRow : Row := ["1".data, "12345".data, "山田太郎".data]

def c3Rows : List Row := [c3HeaderRow, c3ShortRow, c3GoodRow]

/-- C3: the classification if-and-only-if fails on the code.  In `c3Rows`
the one-field row after the header makes line 362 (`row[name_col_idx]`)
raise `IndexError` — the `is_valid_row` guard is computed but not yet
consulted when the indexing happens — so the document aborts, although the
final row satisfies all three stated conditions (more fields than the name
index 2, non-blank name, position-1 field led by four-plus digits) and the
claim (with the spec's edge-case policy) requires the short row to be merely
excluded and the valid row classified. -/
theorem C3_short_row_aborts_document :
    processRows c3Rows = Except.error PErr.indexErrorName ∧
    listIndex (c3HeaderRow.map pyStrip) nameColLabel = some 2 ∧
    (2 < c3GoodRow.length ∧ pyStrip (c3GoodRow.getD 2 []) ≠ [] ∧
      reMatchCode (pyStrip (c3GoodRow.getD 1 [])) = true) :=
  ⟨rfl, rfl, by decide, by decide, by decide⟩

/-- C4: header detection selects the first row (in position order) whose
first trimmed field equals the sentinel `'順位'`, even when a later row also
matches; the selected row's fields are all trimmed to form the header; and
when no row matches, the document is skipped with the header-not-found
warning instead of being processed further. -/
theorem C4_header_first_match (rows : List Row) :
    (∀ h i, findHeaderRow rows = some (h, i) →
      (∃ r, rows[i]? = some r ∧ isHeaderRowB r = true ∧ h = r.map pyStrip) ∧
      ∀ j, j < i → ∀ r, rows[j]? = some r → isHeaderRowB r = false) ∧
    ((∀ r ∈ rows, isHeaderRowB r = false) →
      findHeaderRow rows = none ∧
      processRows rows = Except.error PErr.headerNotFound) := by
  constructor
  · intro h i hf
    exact findHeaderAux_some hf
  · intro hall
    have hnone : findHeaderRow rows = none := findHeaderAux_none hall
    refine ⟨hnone, ?_⟩
    unfold processRows
    rw [hnone]

def c4Rows : List Row :=
  [[" x".data], ["  順位 ".data, "番号".data, " 政党名／候補者名 ".data],
   ["順位".data]]

/-- C4 witness: in `c4Rows` the row at index 1 is selected with trimmed
fields, and the later sentinel row at index 2 is ignored. -/
theorem C4_witness :
    (∃ r, c4Rows[1]? = some r ∧ isHeaderRowB r = true ∧
      ["順位".data, "番号".data, "政党名／候補者名".data] = r.map pyStrip) ∧
    ∀ j, j < 1 → ∀ r, c4Rows[j]? = some r → isHeaderRowB r = false :=
  (C4_header_first_match c4Rows).1
    ["順位".data, "番号".data, "政党名／候補者名".data] 1 rfl

/-- C10: because the header's first field is the sentinel `'順位'`, the
resolved index of `'政党名／候補者名'` is at least 1; hence every row passing
the field-count check also has its position-1 field in bounds, and the
pipeline can never raise the position-1 IndexError. -/
theorem C10_pos1_access_safe (rows : List Row) :
    (∀ h i nameIdx, findHeaderRow rows = some (h, i) →
      listIndex h nameColLabel = some nameIdx →
      1 ≤ nameIdx ∧ ∀ row : Row, nameIdx < row.length → 1 < row.length) ∧
    processRows rows ≠ Except.error PErr.indexErrorPos1 := by
  have hmain : ∀ h i nameIdx, findHeaderRow rows = some (h, i) →
      listIndex h nameColLabel = some nameIdx → 1 ≤ nameIdx := by
    intro h i nameIdx hf hl
    rcases findHeaderRow_head_sentinel hf with ⟨t, rfl⟩
    exact listIndex_cons_ne (by decide) hl
  constructor
  · intro h i nameIdx hf hl
    refine ⟨hmain h i nameIdx hf hl, ?_⟩
    intro row hr
    have h1 := hmain h i nameIdx hf hl
    omega
  · unfold processRows
    cases hf : findHeaderRow rows with
    | none => simp
    | some p =>
      rcases p with ⟨h, i⟩
      cases hl : listIndex h nameColLabel with
      | none => simp [hl]
      | some nameIdx =>
        have h1 : 1 ≤ nameIdx := hmain h i nameIdx hf hl
        cases hc : classifyRows nameIdx (rows.drop (i + 1)) with
        | error e =>
          have he : e ≠ PErr.indexErrorPos1 := by
            intro hcontra
            exact classifyRows_no_pos1 h1 _ (hcontra ▸ hc)
          simp [hl, hc, he]
        | ok cands =>
          by_cases hcand : cands = []
          · simp [hl, hc, hcand]
          · simp [hl, hc, hcand]

def c10Rows : List Row := [["順位".data, "番号".data, "政党名／候補者名".data]]

/-- C10 witness: the concrete header resolves the name column to index 2,
which is at least 1. -/
theorem C10_witness :
    1 ≤ 2 ∧ ∀ row : Row, 2 < row.length → 1 < row.length :=
  (C10_pos1_access_safe c10Rows).1
    ["順位".data, "番号".data, "政党名／候補者名".data] 0 2 rfl rfl

/-- C9: the winners subset (status mark non-blank after trim) and the losers
subset (status mark blank and party code non-blank after trim) are disjoint:
no row satisfies both predicates, and neither derived report keeps a row of
the other. -/
theorem C9_winners_losers_disjoint (markIdx partyIdx : Nat) (rows : List Row) :
    (∀ row : Row,
      (isWinner markIdx row && isLoser markIdx partyIdx row) = false) ∧
    (winnersOf markIdx rows).all
      (fun r => !(isLoser markIdx partyIdx r)) = true ∧
    (losersOf markIdx partyIdx rows).all
      (fun r => !(isWinner markIdx r)) = true := by
  have hx : ∀ row : Row,
      (isWinner markIdx row && isLoser markIdx partyIdx row) = false := by
    intro row
    unfold isWinner isLoser
    by_cases h : pyStrip (cellAt row markIdx) = []
    · simp [h]
    · simp [h]
  refine ⟨hx, ?_, ?_⟩
  · rw [List.all_eq_true]
    intro r hr
    have hw : isWinner markIdx r = true :=
      List.of_mem_filter (by simpa [winnersOf] using hr)
    have hx2 := hx r
    rw [hw] at hx2
    simp at hx2
    simp [hx2]
  · rw [List.all_eq_true]
    intro r hr
    have hl : isLoser markIdx partyIdx r = true :=
      List.of_mem_filter (by simpa [losersOf] using hr)
    have hx2 := hx r
    cases hwin : isWinner markIdx r
    · simp [hwin]
    · rw [hwin, hl] at hx2
      simp at hx2

/-- C5: whenever the extraction stage hands a result to the pipeline, both
the headline and the body are non-empty — the caller guard skips a document
with an empty field — and a content where only a headline or only a body
pattern matches extracts nothing; no partial result exists. -/
theorem C5_extraction_all_or_nothing (decode : String → List Char) :
    (∀ h b, pipelineExtract decode = some (h, b) → h ≠ [] ∧ b ≠ []) ∧
    (∀ h b, extract_content_from_xml decode = some (h, b) →
      (h = [] ∨ b = []) → pipelineExtract decode = none) ∧
    (∀ content, (extractHeadline content = none ∨ extractBody content = none) →
      extractFromContent content = none) := by
  refine ⟨?_, ?_, ?_⟩
  · intro h b hp
    unfold pipelineExtract at hp
    cases he : extract_content_from_xml decode with
    | none => rw [he] at hp; cases hp
    | some r =>
      rcases r with ⟨h0, b0⟩
      simp only [he] at hp
      by_cases hc : h0 = [] ∨ b0 = []
      · rw [if_pos hc] at hp; cases hp
      · rw [if_neg hc] at hp
        injection hp with hp
        injection hp with hp1 hp2
        subst hp1
        subst hp2
        push_neg at hc
        exact hc
  · intro h b he hempty
    unfold pipelineExtract
    simp only [he]
    rw [if_pos hempty]
  · intro content hcon
    rcases hcon with h1 | h1
    · cases hb : extractBody content <;> simp [extractFromContent, h1, hb]
    · cases hh : extractHeadline content <;> simp [extractFromContent, hh, h1]

def c5Decode : String → List Char := fun e =>
  if e = "sjis" then "<HeadLine>h1</HeadLine><Sentence>b1</Sentence>".data
  else "junk".data

/-- C5 witness: a concrete resolvable document yields two non-empty
fields. -/
theorem C5_witness :
    "h1".data ≠ ([] : List Char) ∧ "b1".data ≠ ([] : List Char) :=
  (C5_extraction_all_or_nothing c5Decode).1 "h1".data "b1".data rfl

/-- C6: the resolver tries the fixed ordered list
`['utf-8', 'sjis', 'cp932', 'utf-16']` and accepts exactly the first
candidate whose decoded text yields both a headline-tag and a body-tag match
(successful decoding alone never accepts); when no candidate yields both,
extraction reports failure — never a partial result. -/
theorem C6_first_encoding_with_both_tags (decode : String → List Char) :
    encodings_to_try = ["utf-8", "sjis", "cp932", "utf-16"] ∧
    (∀ r, extract_content_from_xml decode = some r →
      ∃ (k : Nat) (ek : String), encodings_to_try[k]? = some ek ∧
        extractFromContent (decode ek) = some r ∧
        ∀ (j : Nat) (ej : String), j < k → encodings_to_try[j]? = some ej →
          extractFromContent (decode ej) = none) ∧
    ((∀ e ∈ encodings_to_try, extractFromContent (decode e) = none) →
      extract_content_from_xml decode = none) ∧
    (∀ content r, extractFromContent content = some r →
      extractHeadline content ≠ none ∧ extractBody content ≠ none) := by
  refine ⟨rfl, ?_, ?_, ?_⟩
  · intro r hr
    exact tryEncodings_some hr
  · intro hall
    exact tryEncodings_none hall
  · intro content r h
    exact extractFromContent_both h

def c6Decode : String → List Char := fun e =>
  if e = "cp932" then "<InHeadLine>h2</InHeadLine><CsvData>b2</CsvData>".data
  else "nope".data

/-- C6 witness: with only the third candidate decoding to both tags, that
candidate is accepted and the earlier ones are rejected. -/
theorem C6_witness :
    ∃ (k : Nat) (ek : String), encodings_to_try[k]? = some ek ∧
      extractFromContent (c6Decode ek) = some ("h2".data, "b2".data) ∧
      ∀ (j : Nat) (ej : String), j < k → encodings_to_try[j]? = some ej →
        extractFromContent (c6Decode ej) = none :=
  (C6_first_encoding_with_both_tags c6Decode).2.1 ("h2".data, "b2".data) rfl

/-- C7: the headline is the first match in priority order `InHeadLine`,
`HeadLine`, `DeliveryHeadline1` and the body the first of `CsvData`,
`Sentence`, each match a genuine tag-pair decomposition of the content with
newlines treated as ordinary characters; everything from the first opening
or closing `InData` marker onward is removed from the body, and with no
marker present the matched body is kept whole. -/
theorem C7_tag_priority_and_indata_strip (content b : List Char) :
    (∀ m, extractHeadline content = some m →
      searchTag "<InHeadLine>".data "</InHeadLine>".data content = some m ∨
      (searchTag "<InHeadLine>".data "</InHeadLine>".data content = none ∧
       searchTag "<HeadLine>".data "</HeadLine>".data content = some m) ∨
      (searchTag "<InHeadLine>".data "</InHeadLine>".data content = none ∧
       searchTag "<HeadLine>".data "</HeadLine>".data content = none ∧
       searchTag "<DeliveryHeadline1>".data "</DeliveryHeadline1>".data
         content = some m)) ∧
    (∀ m, extractBody content = some m →
      searchTag "<CsvData>".data "</CsvData>".data content = some m ∨
      (searchTag "<CsvData>".data "</CsvData>".data content = none ∧
       searchTag "<Sentence>".data "</Sentence>".data content = some m)) ∧
    (∀ o c m, searchTag o c content = some m →
      ∃ p q, content = p ++ o ++ m ++ c ++ q) ∧
    ((∀ j, ¬ occursInData b j) → stripInData b = b) ∧
    (∀ n, occursInData b n →
      ∃ i, stripInData b = b.take i ∧ occursInData b i ∧
        ∀ j, j < i → ¬ occursInData b j) := by
  refine ⟨?_, ?_, ?_, fun h => stripInData_no_marker h,
          fun n hn => stripInData_first_marker hn⟩
  · intro m hm
    unfold extractHeadline at hm
    cases h1 : searchTag "<InHeadLine>".data "</InHeadLine>".data content with
    | some m1 =>
      simp only [h1] at hm
      injection hm with hm
      subst hm
      exact Or.inl rfl
    | none =>
      simp only [h1] at hm
      cases h2 : searchTag "<HeadLine>".data "</HeadLine>".data content with
      | some m2 =>
        simp only [h2] at hm
        injection hm with hm
        subst hm
        exact Or.inr (Or.inl ⟨rfl, rfl⟩)
      | none =>
        simp only [h2] at hm
        exact Or.inr (Or.inr ⟨rfl, rfl, hm⟩)
  · intro m hm
    unfold extractBody at hm
    cases h1 : searchTag "<CsvData>".data "</CsvData>".data content with
    | some m1 =>
      simp only [h1] at hm
      injection hm with hm
      subst hm
      exact Or.inl rfl
    | none =>
      simp only [h1] at hm
      exact Or.inr ⟨rfl, hm⟩
  · intro o c m h
    exact searchTag_decomp h

def c7Content : List Char := "<HeadLine>abc\ndef</HeadLine>".data

def c7Body : List Char := "data<InData>x".data

/-- C7 witness: with no `InHeadLine` pair present, the `HeadLine` match wins
even across an embedded newline, and the body is cut at the first `InData`
marker (index 4). -/
theorem C7_witness :
    (searchTag "<InHeadLine>".data "</InHeadLine>".data c7Content =
        some "abc\ndef".data ∨
     (searchTag "<InHeadLine>".data "</InHeadLine>".data c7Content = none ∧
      searchTag "<HeadLine>".data "</HeadLine>".data c7Content =
        some "abc\ndef".data) ∨
     (searchTag "<InHeadLine>".data "</InHeadLine>".data c7Content = none ∧
      searchTag "<HeadLine>".data "</HeadLine>".data c7Content = none ∧
      searchTag "<DeliveryHeadline1>".data "</DeliveryHeadline1>".data
        c7Content = some "abc\ndef".data)) ∧
    (∃ i, stripInData c7Body = c7Body.take i ∧ occursInData c7Body i ∧
      ∀ j, j < i → ¬ occursInData c7Body j) :=
  ⟨(C7_tag_priority_and_indata_strip c7Content c7Body).1 "abc\ndef".data rfl,
   (C7_tag_priority_and_indata_strip c7Content c7Body).2.2.2.2 4
     (Or.inl (by unfold occursAt; decide))⟩
